import Mathlib

/-!
Verification of the Khoregos governance engine against its specification.

The TypeScript sources are shallowly embedded: pure functions become Lean
functions, the SQLite-backed state becomes explicit record states, wall-clock
time and filesystem/VCS results become explicit parameters, and the external
HMAC-SHA256 primitive from node:crypto is abstracted as a function parameter
(the chain structure built on top of it is modelled exactly).
-/

namespace Khoregos

/-! ## Basic string helpers (substring containment, used in several claims) -/

/-- Bool test: the first list is an initial portion of the second. -/
def leadsWith : List Char → List Char → Bool
  | [], _ => true
  | _ :: _, [] => false
  | a :: as, b :: bs => a == b && leadsWith as bs

/-- Bool test: `pat` occurs contiguously somewhere inside `l`. -/
def hasSub (pat : List Char) : List Char → Bool
  | [] => leadsWith pat []
  | c :: rest => leadsWith pat (c :: rest) || hasSub pat rest

/-- `containsStr s pat` is true when `pat` occurs as a substring of `s`. -/
def containsStr (s pat : String) : Bool :=
  hasSub pat.toList s.toList

/-- `s.startsWith pre` (character-list implementation). -/
def strStartsWith (s pre : String) : Bool :=
  leadsWith pre.toList s.toList

/-- Split a character list on a separator character; like
`String.splitOn` with a one-character separator. -/
def splitCharsOn (sep : Char) : List Char → List (List Char)
  | [] => [[]]
  | c :: rest =>
    let r := splitCharsOn sep rest
    if c == sep then [] :: r
    else
      match r with
      | [] => [[c]]
      | g :: gs => (c :: g) :: gs

/-- Split a path string on `/`. -/
def splitOnSlash (s : String) : List String :=
  (splitCharsOn '/' s.toList).map String.mk

/-- Join strings with a separator (like `String.intercalate`). -/
def joinWith (sep : String) : List String → String
  | [] => ""
  | [x] => x
  | x :: xs => x ++ sep ++ joinWith sep xs

/-- Lexicographic order on character lists by code point; on the ASCII
ISO-8601 timestamps this agrees with the bytewise TEXT comparison SQLite
performs. -/
def charListLt : List Char → List Char → Bool
  | [], [] => false
  | [], _ :: _ => true
  | _ :: _, [] => false
  | a :: as, b :: bs =>
    decide (a.toNat < b.toNat) || (a == b && charListLt as bs)

/-- `a < b` on strings, bytewise as in SQLite TEXT comparison. -/
def strLt (a b : String) : Bool :=
  charListLt a.toList b.toList

/-! ## JSON serialization helpers

`canonicalizeEvent` in `signing.ts` relies on `JSON.stringify`; we embed the
byte-level serialization it produces (no whitespace, keys in the order given,
standard JSON string escaping). -/

/-- One hex digit, lowercase, as produced by JS \u escapes. -/
def hexDigit (n : Nat) : Char :=
  if n < 10 then Char.ofNat (48 + n) else Char.ofNat (87 + n)

/-- Four lowercase hex digits for a code point below 0x10000. -/
def hex4 (n : Nat) : String :=
  String.mk [hexDigit (n / 4096 % 16), hexDigit (n / 256 % 16),
             hexDigit (n / 16 % 16), hexDigit (n % 16)]

/-- JSON escaping of a single character, as `JSON.stringify` performs it. -/
def jsonEscapeChar (c : Char) : String :=
  if c = '"' then "\\\""
  else if c = '\\' then "\\\\"
  else if c = '\n' then "\\n"
  else if c = '\r' then "\\r"
  else if c = '\t' then "\\t"
  else if c = Char.ofNat 8 then "\\b"
  else if c = Char.ofNat 12 then "\\f"
  else if c.toNat < 32 then "\\u" ++ hex4 c.toNat
  else String.singleton c

/-- JSON serialization of a string value. -/
def jsonStr (s : String) : String :=
  "\"" ++ String.join (s.toList.map jsonEscapeChar) ++ "\""

/-- JSON serialization of a nullable string value. -/
def jsonOptStr : Option String → String
  | none => "null"
  | some s => jsonStr s

/-- JSON serialization of an array of strings. -/
def jsonArrStr (l : List String) : String :=
  "[" ++ joinWith "," (l.map jsonStr) ++ "]"

/-- JSON serialization of an object whose values are given as already
serialized JSON fragments (this is how `Record<string, unknown>` values are
modelled: each value by the JSON text `JSON.stringify` yields for it). -/
def jsonObjStr (entries : List (String × String)) : String :=
  "\x7b" ++ joinWith "," (entries.map (fun p => jsonStr p.1 ++ ":" ++ p.2)) ++ "\x7d"

/-! ## AuditEvent model (src/models/audit.ts shape, as used by signing.ts and
audit.ts). `details` and `filesAffected` are stored as already serialized JSON
strings, exactly as in the TypeScript record. -/

structure AuditEvent where
  id : String
  timestamp : String
  sequence : Nat
  sessionId : String
  agentId : Option String
  eventType : String
  action : String
  details : Option String
  filesAffected : Option String
  gateId : Option String
  hmac : Option String
  severity : String
deriving DecidableEq

/-! ## Signing (src/engine/signing.ts)

`createHmac("sha256", key)` is an external crypto primitive; it is abstracted
as a parameter `f : HmacFn` mapping the key bytes and the message to the
lowercase-hex digest. Everything layered on top of it is embedded exactly. -/

/-- Abstract HMAC-SHA256: key bytes and message to lowercase hex digest. -/
def HmacFn : Type := List Nat → String → String

/-- `canonicalizeEvent`: the event as a JSON object with the `hmac` field
excluded and the remaining keys sorted ascending (the sorted order of the
eleven remaining keys is written out literally). -/
def canonicalizeEvent (e : AuditEvent) : String :=
  "\x7b\"action\":" ++ jsonStr e.action ++
  ",\"agentId\":" ++ jsonOptStr e.agentId ++
  ",\"details\":" ++ jsonOptStr e.details ++
  ",\"eventType\":" ++ jsonStr e.eventType ++
  ",\"filesAffected\":" ++ jsonOptStr e.filesAffected ++
  ",\"gateId\":" ++ jsonOptStr e.gateId ++
  ",\"id\":" ++ jsonStr e.id ++
  ",\"sequence\":" ++ toString e.sequence ++
  ",\"sessionId\":" ++ jsonStr e.sessionId ++
  ",\"severity\":" ++ jsonStr e.severity ++
  ",\"timestamp\":" ++ jsonStr e.timestamp ++ "\x7d"

/-- `computeHmac(key, previousHmac, event)`. -/
def computeHmac (f : HmacFn) (key : List Nat) (previousHmac : String) (e : AuditEvent) : String :=
  f key (previousHmac ++ canonicalizeEvent e)

/-- `genesisValue(sessionId)`. -/
def genesisValue (sessionId : String) : String :=
  "k6s:genesis:" ++ sessionId

/-- One entry of the error list of `verifyChain`. -/
structure VerifyError where
  sequence : Nat
  errType : String
  message : String
  expected : Option String := none
  actual : Option String := none
deriving DecidableEq

/-- The result record of `verifyChain`. -/
structure VerifyResult where
  valid : Bool
  eventsChecked : Nat
  errors : List VerifyError
deriving DecidableEq

/-- The loop body of `verifyChain`: walks the events carrying the previous
hmac (the actual stored one, so downstream mismatches are still reported) and
the last seen sequence number. -/
def verifyGo (f : HmacFn) (key : List Nat) :
    List AuditEvent → String → Nat → List VerifyError
  | [], _, _ => []
  | e :: rest, previousHmac, lastSequence =>
    let gapErrs : List VerifyError :=
      if lastSequence > 0 ∧ e.sequence ≠ lastSequence + 1 then
        [{ sequence := e.sequence, errType := "gap",
           message := "sequence gap: expected " ++ toString (lastSequence + 1) ++
             ", got " ++ toString e.sequence }]
      else []
    match e.hmac with
    | none =>
      gapErrs ++
      [{ sequence := e.sequence, errType := "missing",
         message := "event has no HMAC (unsigned)" }] ++
      verifyGo f key rest previousHmac e.sequence
    | some h =>
      let expected := computeHmac f key previousHmac e
      let mismatchErrs : List VerifyError :=
        if h ≠ expected then
          [{ sequence := e.sequence, errType := "mismatch",
             message := "HMAC mismatch at sequence " ++ toString e.sequence,
             expected := some expected, actual := some h }]
        else []
      gapErrs ++ mismatchErrs ++ verifyGo f key rest h e.sequence

/-- `verifyChain(key, sessionId, events)`. -/
def verifyChain (f : HmacFn) (key : List Nat) (sessionId : String)
    (events : List AuditEvent) : VerifyResult :=
  if events.isEmpty then
    { valid := true, eventsChecked := 0, errors := [] }
  else
    let errors := verifyGo f key events (genesisValue sessionId) 0
    { valid := errors.isEmpty, eventsChecked := events.length, errors := errors }

/-! ## AuditLogger (src/engine/audit.ts)

The in-memory state of the logger is `sequence` and `lastHmac`. `ulid()` and
`new Date().toISOString()` are nondeterministic inputs and are passed in
explicitly with each `log` call. -/

structure LoggerState where
  sequence : Nat
  lastHmac : Option String
deriving DecidableEq

/-- A fresh logger on a session with no prior events (`start()` finds
`MAX(sequence)` null, so sequence 0 and no cached hmac). -/
def initLogger : LoggerState := { sequence := 0, lastHmac := none }

/-- The options record accepted by `AuditLogger.log`. `details` is a
string-keyed map whose values are given as serialized JSON fragments. -/
structure LogOpts where
  eventType : String
  action : String
  agentId : Option String := none
  details : Option (List (String × String)) := none
  filesAffected : Option (List String) := none
  gateId : Option String := none
  severity : Option String := none

/-- JS object spread `{...entries, ...(trace_id)}`: overriding an existing
key keeps its position, a new key is appended. -/
def mergeTraceId (entries : List (String × String)) : Option String → List (String × String)
  | none => entries
  | some t =>
    if entries.any (fun p => p.1 == "trace_id") then
      entries.map (fun p => if p.1 == "trace_id" then ("trace_id", jsonStr t) else p)
    else entries ++ [("trace_id", jsonStr t)]

/-- The `details` field assembly in `log`: serialized when either the caller
passed details or a trace id is configured, null otherwise. -/
def assembleDetails (details : Option (List (String × String))) (traceId : Option String) :
    Option String :=
  match details, traceId with
  | none, none => none
  | d, t => some (jsonObjStr (mergeTraceId (d.getD []) t))

/-- The `filesAffected` field assembly in `log`: a JSON array when the list
is present and non-empty, null otherwise. -/
def assembleFiles : Option (List String) → Option String
  | none => none
  | some l => if l.isEmpty then none else some (jsonArrStr l)

/-- One `AuditLogger.log` call: increment the sequence, assemble the event,
compute the hmac from `lastHmac ?? genesis(sessionId)` when a signing key is
present, and update the cached hmac. Returns the stored event and the new
logger state. -/
def logStep (f : HmacFn) (signingKey : Option (List Nat)) (sessionId : String)
    (traceId : Option String) (st : LoggerState) (opts : LogOpts)
    (newId newTimestamp : String) : AuditEvent × LoggerState :=
  let seq := st.sequence + 1
  let event : AuditEvent := {
    id := newId
    timestamp := newTimestamp
    sequence := seq
    sessionId := sessionId
    agentId := opts.agentId
    eventType := opts.eventType
    action := opts.action
    details := assembleDetails opts.details traceId
    filesAffected := assembleFiles opts.filesAffected
    gateId := opts.gateId
    hmac := none
    severity := opts.severity.getD "info" }
  match signingKey with
  | some key =>
    let previousHmac := st.lastHmac.getD (genesisValue sessionId)
    let h := computeHmac f key previousHmac event
    ({ event with hmac := some h }, { sequence := seq, lastHmac := some h })
  | none => (event, { st with sequence := seq })

/-- A sequence of `log` calls; each input carries the opts together with the
generated id and timestamp of that call. -/
def logRun (f : HmacFn) (signingKey : Option (List Nat)) (sessionId : String)
    (traceId : Option String) :
    LoggerState → List (LogOpts × String × String) → List AuditEvent
  | _, [] => []
  | st, (o, i, t) :: rest =>
    let r := logStep f signingKey sessionId traceId st o i t
    r.1 :: logRun f signingKey sessionId traceId r.2 rest

/-- The previous link for the event at index `i` of a session event list:
the stored hmac of the immediately preceding event, or the genesis value when
no prior event exists. -/
def prevHmacAt (sessionId : String) (events : List AuditEvent) : Nat → String
  | 0 => genesisValue sessionId
  | j + 1 => ((events.get? j).bind AuditEvent.hmac).getD (genesisValue sessionId)

/-! ## Post-tool-use hook, resource-limit fragment (src/cli/hook.ts)

`incrementToolCallCount` is an atomic SQL increment returning the new count;
the hook then logs a single `boundary_violation` event exactly when the
incremented count first exceeds the boundary field `max_tool_calls_per_session`. -/

/-- The audit-event fields the limit check logs. -/
structure LimitEvent where
  eventType : String
  action : String
  severity : String
deriving DecidableEq

/-- The action text of the resource-limit audit event. -/
def hookLimitAction (agentName : String) (newCount limit : Nat) : String :=
  "resource limit exceeded: agent \x27" ++ agentName ++ "\x27 has made " ++
    toString newCount ++ " tool calls (limit: " ++ toString limit ++ ")"

/-- The limit check of the hook: `limit != null && newCount > limit &&
newCount === limit + 1` logs one warning event, otherwise nothing. -/
def hookLimitEvent (agentName : String) (limit : Option Nat) (newCount : Nat) :
    Option LimitEvent :=
  match limit with
  | none => none
  | some l =>
    if newCount > l ∧ newCount = l + 1 then
      some { eventType := "boundary_violation"
             action := hookLimitAction agentName newCount l
             severity := "warning" }
    else none

/-- Resource accounting of one hook run: increment the per-agent count
(`incrementToolCallCount`), then run the limit check on the new count.
Returns the optional logged event and the stored count. -/
def hookResourceStep (agentName : String) (limit : Option Nat) (count : Nat) :
    Option LimitEvent × Nat :=
  (hookLimitEvent agentName limit (count + 1), count + 1)

/-! ## Glob matching (picomatch, as used by boundaries.ts)

Patterns support `*` (within one segment), `**` (any number of segments),
`?`, and `[class]`; the `dot` option lets wildcards match names starting
with a dot. Patterns and paths are compared segment-wise on `/`. -/

/-- Scan a character-class body up to the closing `]`; returns the body and
the remainder of the pattern. -/
def classSpan : List Char → Option (List Char × List Char)
  | [] => none
  | ']' :: rest => some ([], rest)
  | c :: rest =>
    match classSpan rest with
    | none => none
    | some p => some (c :: p.1, p.2)

/-- Membership of a character in the (possibly range-containing) members of a
character class body. -/
def classMem : List Char → Char → Bool
  | [], _ => false
  | a :: '-' :: b :: rest, c =>
    if b = ']' then (a == c) || ('-' == c) || classMem rest c
    else (decide (a ≤ c) && decide (c ≤ b)) || classMem rest c
  | a :: rest, c => (a == c) || classMem rest c

/-- Character-class test including leading negation via `^` or `!`. -/
def classTest (body : List Char) (c : Char) : Bool :=
  match body with
  | '^' :: r => !classMem r c
  | '!' :: r => !classMem r c
  | r => classMem r c

/-- A tokenized glob segment element. -/
inductive GTok
  | star
  | qmark
  | lit (c : Char)
  | cls (body : List Char)
deriving DecidableEq

/-- The fueled tokenizer body; fuel at least `l.length + 1` suffices because
a recognized character class consumes at least the closing bracket. (The
recursion is on the fuel so that the kernel can evaluate the function.) -/
def tokenizeSegF : Nat → List Char → List GTok
  | 0, _ => []
  | _ + 1, [] => []
  | fuel + 1, '*' :: rest => .star :: tokenizeSegF fuel rest
  | fuel + 1, '?' :: rest => .qmark :: tokenizeSegF fuel rest
  | fuel + 1, '[' :: rest =>
    (match classSpan rest with
     | some p => .cls p.1 :: tokenizeSegF fuel p.2
     | none => .lit '[' :: tokenizeSegF fuel rest)
  | fuel + 1, c :: rest => .lit c :: tokenizeSegF fuel rest

/-- Tokenize one glob segment. An unterminated `[` is a literal bracket. -/
def tokenizeSeg (l : List Char) : List GTok :=
  tokenizeSegF (l.length + 1) l

/-- The fueled segment matcher body; every recursive call shrinks the sum of
the two list lengths, so fuel `ps.length + ns.length + 1` suffices. -/
def segMatchF : Nat → List GTok → List Char → Bool
  | 0, _, _ => false
  | _ + 1, [], [] => true
  | _ + 1, [], _ :: _ => false
  | fuel + 1, .star :: ps, [] => segMatchF fuel ps []
  | fuel + 1, .star :: ps, n :: ns =>
    segMatchF fuel ps (n :: ns) || segMatchF fuel (.star :: ps) ns
  | fuel + 1, .qmark :: ps, _ :: ns => segMatchF fuel ps ns
  | _ + 1, .qmark :: _, [] => false
  | fuel + 1, .cls body :: ps, n :: ns => classTest body n && segMatchF fuel ps ns
  | _ + 1, .cls _ :: _, [] => false
  | fuel + 1, .lit c :: ps, n :: ns => c == n && segMatchF fuel ps ns
  | _ + 1, .lit _ :: _, [] => false

/-- Match a tokenized glob segment against the characters of one name. -/
def segMatchT (ps : List GTok) (ns : List Char) : Bool :=
  segMatchF (ps.length + ns.length + 1) ps ns

/-- Match one glob segment against one path segment; without the `dot`
option a wildcard-led pattern cannot match a name starting with a dot. -/
def globSegMatch (dot : Bool) (pat name : String) : Bool :=
  if !dot && strStartsWith name "." && !strStartsWith pat "." then false
  else segMatchT (tokenizeSeg pat.toList) name.toList

/-- The fueled segment-list matcher; every recursive call shrinks the sum of
the two list lengths, so fuel `ps.length + ns.length + 1` suffices. -/
def globSegsF (dot : Bool) : Nat → List String → List String → Bool
  | 0, _, _ => false
  | _ + 1, [], [] => true
  | _ + 1, [], _ :: _ => false
  | fuel + 1, "**" :: ps, ns =>
    globSegsF dot fuel ps ns ||
    (match ns with
     | [] => false
     | n :: ns2 => (dot || !strStartsWith n ".") && globSegsF dot fuel ("**" :: ps) ns2)
  | _ + 1, _ :: _, [] => false
  | fuel + 1, p :: ps, n :: ns => globSegMatch dot p n && globSegsF dot fuel ps ns

/-- Segment-wise glob matching; a `**` pattern segment matches zero or more
path segments. -/
def globSegsMatch (dot : Bool) (ps ns : List String) : Bool :=
  globSegsF dot (ps.length + ns.length + 1) ps ns

/-- `picomatch.isMatch(str, pattern, { dot })`. -/
def globIsMatch (dot : Bool) (pattern str : String) : Bool :=
  globSegsMatch dot (splitOnSlash pattern) (splitOnSlash str)

/-! ## POSIX path helpers (node:path, lexical behavior)

`realpathSync` consults the filesystem, so it enters the model as an oracle
parameter `rp : String → Option String` (`none` models a thrown error, upon
which the code falls back to lexical resolution). -/

/-- Absolute POSIX path test. -/
def isAbsolutePath (p : String) : Bool := strStartsWith p "/"

/-- Normalize the segments of an absolute path: drop empty and `.` segments,
let `..` pop (vanishing at the root). The accumulator is reversed. -/
def normSegs : List String → List String → List String
  | acc, [] => acc.reverse
  | acc, "" :: rest => normSegs acc rest
  | acc, "." :: rest => normSegs acc rest
  | acc, ".." :: rest => normSegs (acc.drop 1) rest
  | acc, s :: rest => normSegs (s :: acc) rest

/-- Lexical normalization of an absolute path. -/
def normalizeAbs (p : String) : String :=
  "/" ++ joinWith "/" (normSegs [] (splitOnSlash p))

/-- `path.resolve(base, p)` for an absolute `base`. -/
def pathResolve (base p : String) : String :=
  if isAbsolutePath p then normalizeAbs p else normalizeAbs (base ++ "/" ++ p)

/-- `path.join(a, b)` for an absolute `a` (join then normalize). -/
def joinPath (a b : String) : String :=
  normalizeAbs (a ++ "/" ++ b)

/-- The non-empty segments of an absolute path. -/
def segsOf (p : String) : List String :=
  (splitOnSlash p).filter (fun s => s ≠ "")

/-- Drop the common leading segments of two segment lists. -/
def dropCommon : List String → List String → List String × List String
  | a :: as, b :: bs => if a = b then dropCommon as bs else (a :: as, b :: bs)
  | as, bs => (as, bs)

/-- `path.relative(f, t)` (POSIX) for absolute normalized inputs. -/
def pathRelative (f t : String) : String :=
  let p := dropCommon (segsOf f) (segsOf t)
  joinWith "/" (p.1.map (fun _ => "..") ++ p.2)

/-! ## BoundaryEnforcer (src/engine/boundaries.ts) -/

structure BoundaryConfig where
  pattern : String
  allowedPaths : List String
  forbiddenPaths : List String
  enforcement : String
  maxToolCallsPerSession : Option Nat := none
deriving DecidableEq

/-- `getBoundaryForAgent`: first boundary whose agent-name glob matches, else
the wildcard (`"*"`) boundary, else none. -/
def getBoundaryForAgent (boundaries : List BoundaryConfig) (agentName : String) :
    Option BoundaryConfig :=
  match boundaries.find? (fun b => globIsMatch false b.pattern agentName) with
  | some b => some b
  | none => boundaries.find? (fun b => b.pattern == "*")

/-- The resolved project root: `realpathSync` result, or lexical
`path.resolve` on failure. `cwd` stands for `process.cwd()`. -/
def resolveRootPath (rp : String → Option String) (cwd root : String) : String :=
  (rp root).getD (pathResolve cwd root)

/-- The resolved checked path: absolute paths are canonicalized directly,
relative paths are joined with the resolved root first. -/
def resolveFilePath (rp : String → Option String) (cwd resolvedRoot filePath : String) : String :=
  if isAbsolutePath filePath then (rp filePath).getD (pathResolve cwd filePath)
  else (rp (joinPath resolvedRoot filePath)).getD (pathResolve resolvedRoot filePath)

/-- `checkPathAllowed(filePath, agentName)`. The path separator is already
`/`, so the posix-join of the relative path is the relative path itself. -/
def checkPathAllowed (rp : String → Option String) (cwd : String)
    (boundaries : List BoundaryConfig) (projectRoot filePath agentName : String) :
    Bool × Option String :=
  match getBoundaryForAgent boundaries agentName with
  | none =>
    (false, some ("No boundary configured for agent \x27" ++ agentName ++
      "\x27; denied by default"))
  | some boundary =>
    let resolvedRoot := resolveRootPath rp cwd projectRoot
    let resolved := resolveFilePath rp cwd resolvedRoot filePath
    let rel := pathRelative resolvedRoot resolved
    if strStartsWith rel ".." ∨ isAbsolutePath rel then
      (false, some ("Path " ++ filePath ++ " resolves outside project root"))
    else
      let posixPath := rel
      match boundary.forbiddenPaths.find? (fun pat => globIsMatch true pat posixPath) with
      | some pat => (false, some ("Path matches forbidden pattern: " ++ pat))
      | none =>
        if boundary.allowedPaths.length > 0 then
          if boundary.allowedPaths.any (fun pat => globIsMatch true pat posixPath) then
            (true, none)
          else
            (false, some ("Path does not match any allowed patterns for " ++ agentName))
        else (true, none)

/-! ## FileLockManager (src/engine/locks.ts)

The `file_locks` table (path is the PRIMARY KEY) is modelled as a row list;
`Date` values are milliseconds since the epoch, passed in as `now`. Every
manager query filters by its own `session_id` as the SQL does. -/

structure FileLockRow where
  path : String
  sessionId : String
  agentId : String
  acquiredAt : Nat
  expiresAt : Option Nat
deriving DecidableEq

/-- `isLockExpired`: expired when `expires_at` is present and in the past. -/
def isLockExpired (now : Nat) (l : FileLockRow) : Bool :=
  match l.expiresAt with
  | none => false
  | some e => decide (now > e)

structure LocksDb where
  rows : List FileLockRow
deriving DecidableEq

/-- `SELECT * FROM file_locks WHERE path = ? AND session_id = ?`. -/
def fetchLockRow (db : LocksDb) (p sid : String) : Option FileLockRow :=
  db.rows.find? (fun r => r.path == p && r.sessionId == sid)

/-- `DELETE FROM file_locks WHERE path = ? AND session_id = ?`. -/
def deleteLockRows (db : LocksDb) (p sid : String) : LocksDb :=
  ⟨db.rows.filter (fun r => !(r.path == p && r.sessionId == sid))⟩

/-- `UPDATE file_locks SET expires_at = ? WHERE path = ? AND session_id = ?`. -/
def updateLockExpiry (db : LocksDb) (p sid : String) (newExpires : Nat) : LocksDb :=
  ⟨db.rows.map (fun r =>
    if r.path == p && r.sessionId == sid then { r with expiresAt := some newExpires } else r)⟩

/-- `INSERT OR REPLACE INTO file_locks ...`: the PRIMARY KEY is `path` alone,
so any existing row with the same path — whatever its session — is replaced. -/
def insertOrReplaceLock (db : LocksDb) (row : FileLockRow) : LocksDb :=
  ⟨db.rows.filter (fun r => !(r.path == row.path)) ++ [row]⟩

/-- The result shape of `acquire` (`LockResult`). -/
structure LockResult where
  success : Bool
  lock : Option FileLockRow := none
  reason : Option String := none
deriving DecidableEq

/-- `FileLockManager.acquire(path, agentId, durationSeconds?)` at time `now`:
expired lock is deleted and re-inserted, same-agent lock is extended,
different-agent live lock fails, absent lock is inserted. -/
def acquireLock (db : LocksDb) (sid p agentId : String) (durationSeconds : Option Nat)
    (now : Nat) : LockResult × LocksDb :=
  match fetchLockRow db p sid with
  | some existing =>
    if isLockExpired now existing then
      let db2 := deleteLockRows db p sid
      let duration := durationSeconds.getD 300
      let lock : FileLockRow :=
        { path := p, sessionId := sid, agentId := agentId,
          acquiredAt := now, expiresAt := some (now + duration * 1000) }
      ({ success := true, lock := some lock }, insertOrReplaceLock db2 lock)
    else if existing.agentId ≠ agentId then
      ({ success := false,
         reason := some ("File locked by agent " ++ existing.agentId) }, db)
    else
      let duration := durationSeconds.getD 300
      let newExpires := now + duration * 1000
      ({ success := true, lock := some { existing with expiresAt := some newExpires } },
       updateLockExpiry db p sid newExpires)
  | none =>
    let duration := durationSeconds.getD 300
    let lock : FileLockRow :=
      { path := p, sessionId := sid, agentId := agentId,
        acquiredAt := now, expiresAt := some (now + duration * 1000) }
    ({ success := true, lock := some lock }, insertOrReplaceLock db lock)

/-- `FileLockManager.release(path, agentId)`: idempotent on absence, fails on
a different holder, deletes when the holder itself releases. -/
def releaseLock (db : LocksDb) (sid p agentId : String) : LockResult × LocksDb :=
  match fetchLockRow db p sid with
  | none => ({ success := true, reason := some "Lock not found (already released)" }, db)
  | some existing =>
    if existing.agentId ≠ agentId then
      ({ success := false,
         reason := some ("Lock held by different agent: " ++ existing.agentId) }, db)
    else ({ success := true }, deleteLockRows db p sid)

/-! ## pruneAuditEvents (src/engine/audit.ts)

The tables touched by prune: audit events carry `(session_id, timestamp)`,
sessions carry `(id, state, ended_at)`; the six cascade-deleted tables are
modelled by the `session_id` column of each of their rows (the only column
prune consults). SQLite compares ISO-8601 TEXT timestamps bytewise, which on
these strings is plain lexicographic comparison. -/

structure AuditRowP where
  sessionId : String
  timestamp : String
deriving DecidableEq

structure SessionRowP where
  id : String
  state : String
  endedAt : Option String
deriving DecidableEq

structure PruneDb where
  auditEvents : List AuditRowP
  sessions : List SessionRowP
  boundaryViolations : List String
  fileLocks : List String
  contextStore : List String
  gates : List String
  costRecords : List String
  agents : List String
deriving DecidableEq

structure PruneResult where
  eventsDeleted : Nat
  sessionsPruned : Nat
deriving DecidableEq

/-- The stale-session test: state is completed or failed, and ended_at is
non-null and below the cutoff. -/
def isStale (beforeDate : String) (s : SessionRowP) : Bool :=
  (s.state == "completed" || s.state == "failed") &&
  (match s.endedAt with
   | none => false
   | some e => strLt e beforeDate)

/-- `DELETE FROM <table> WHERE session_id = ?` on a cascade table. -/
def delSess (sid : String) (l : List String) : List String :=
  l.filter (fun s => s != sid)

/-- The per-stale-session loop of the non-dry run: a session is pruned (with
its cascade rows) only when no audit events remain for it. -/
def pruneLoop (db : PruneDb) : List String → PruneDb × Nat
  | [] => (db, 0)
  | sid :: rest =>
    let remaining := (db.auditEvents.filter (fun e => e.sessionId == sid)).length
    if remaining = 0 then
      let db2 : PruneDb :=
        { db with
          boundaryViolations := delSess sid db.boundaryViolations
          fileLocks := delSess sid db.fileLocks
          contextStore := delSess sid db.contextStore
          gates := delSess sid db.gates
          costRecords := delSess sid db.costRecords
          agents := delSess sid db.agents
          sessions := db.sessions.filter (fun s => s.id != sid) }
      let r := pruneLoop db2 rest
      (r.1, r.2 + 1)
    else pruneLoop db rest

/-- `pruneAuditEvents(db, beforeDate, dryRun)`. The dry run counts events
older than the cutoff and terminal sessions ended before the cutoff; the
real run deletes the old events and then prunes each such session only if
it has no remaining events. -/
def pruneAuditEvents (db : PruneDb) (beforeDate : String) (dryRun : Bool) :
    PruneResult × PruneDb :=
  if dryRun then
    let eventCount := (db.auditEvents.filter (fun e => strLt e.timestamp beforeDate)).length
    let sessionCount := (db.sessions.filter (isStale beforeDate)).length
    ({ eventsDeleted := eventCount, sessionsPruned := sessionCount }, db)
  else
    let deleted := (db.auditEvents.filter (fun e => strLt e.timestamp beforeDate)).length
    let db1 : PruneDb :=
      { db with auditEvents := db.auditEvents.filter (fun e => !strLt e.timestamp beforeDate) }
    let staleIds := (db1.sessions.filter (isStale beforeDate)).map SessionRowP.id
    let r := pruneLoop db1 staleIds
    ({ eventsDeleted := deleted, sessionsPruned := r.2 }, r.1)

/-! ## Dependency-change detection (src/engine/dependencies.ts)

`readFileSync`, `JSON.parse` and `git show`/`git rev-parse` are external;
the model receives the parse result of the current file and the outcome of
the `git show` call. Dependency maps are association lists in JSON key
order. -/

structure PkgJson where
  dependencies : Option (List (String × String)) := none
  devDependencies : Option (List (String × String)) := none
deriving DecidableEq

inductive DepChange
  | added (name newVersion : String)
  | removed (name oldVersion : String)
  | updated (name oldVersion newVersion : String)
deriving DecidableEq

/-- JS `map[name]` on an object used as a string map. -/
def depLookup (m : List (String × String)) (name : String) : Option String :=
  (m.find? (fun p => p.1 == name)).map Prod.snd

/-- `diffDeps(oldDeps, newDeps)`: added/updated from the new map in order,
then removed from the old map in order. -/
def diffDeps (oldDeps newDeps : Option (List (String × String))) : List DepChange :=
  let oldMap := oldDeps.getD []
  let newMap := newDeps.getD []
  (newMap.filterMap (fun p =>
    match depLookup oldMap p.1 with
    | none => some (.added p.1 p.2)
    | some oldVersion =>
      if oldVersion ≠ p.2 then some (.updated p.1 oldVersion p.2) else none)) ++
  (oldMap.filterMap (fun p =>
    match depLookup newMap p.1 with
    | none => some (.removed p.1 p.2)
    | some _ => none))

/-- `{...dependencies, ...devDependencies}`: dev entries override in place,
new dev keys are appended. -/
def mergeDeps (a b : List (String × String)) : List (String × String) :=
  (a.map (fun p => (p.1, (depLookup b p.1).getD p.2))) ++
  b.filter (fun p => (depLookup a p.1).isNone)

/-- `getAllDeclaredDependencies(pkg)`. -/
def getAllDeclaredDependencies (pkg : PkgJson) : List (String × String) :=
  mergeDeps (pkg.dependencies.getD []) (pkg.devDependencies.getD [])

/-- Outcome of `git show HEAD:<file>`: `shown` with the parse result of the
committed text, or `failed` with whether `git rev-parse` says we are inside
a work tree. -/
inductive GitShowResult
  | shown (prev : Option PkgJson)
  | failed (insideWorkTree : Bool)

/-- `detectDependencyChanges` after the current file has been read and
parsed (`currentPkg = none` models an unreadable or malformed file). -/
def detectChanges (currentPkg : Option PkgJson) (prior : GitShowResult) : List DepChange :=
  match currentPkg with
  | none => []
  | some cur =>
    match prior with
    | .shown none => []
    | .shown (some prev) =>
      diffDeps prev.dependencies cur.dependencies ++
      diffDeps prev.devDependencies cur.devDependencies
    | .failed true =>
      (getAllDeclaredDependencies cur).map (fun p => .added p.1 p.2)
    | .failed false => []

/-! ## Store identifier safety (src/store/db.ts)

`TABLE_SCHEMA` is the compiled-in allow-list; the database handle is
modelled as the list of SQL statements (with parameters) actually executed,
so an identifier-validation error demonstrably runs no SQL. -/

def tableSchema : List (String × List String) := [
  ("sessions", ["id", "objective", "state", "started_at", "ended_at",
    "parent_session_id", "config_snapshot", "context_summary",
    "total_cost_usd", "total_input_tokens", "total_output_tokens",
    "metadata", "operator", "hostname", "k6s_version",
    "claude_code_version", "git_branch", "git_sha", "git_dirty",
    "trace_id"]),
  ("agents", ["id", "session_id", "name", "role", "specialization", "state",
    "spawned_at", "boundary_config", "metadata", "claude_session_id",
    "tool_call_count"]),
  ("audit_events", ["id", "sequence", "session_id", "agent_id", "timestamp",
    "event_type", "action", "details", "files_affected",
    "gate_id", "hmac", "severity"]),
  ("gates", ["id", "session_id", "rule_id", "rule_name", "agent_id", "state",
    "trigger_event_id", "triggered_at", "resolved_at",
    "resolved_by", "reason", "details"]),
  ("cost_records", ["id", "session_id", "agent_id", "task_id", "timestamp",
    "model", "input_tokens", "output_tokens", "estimated_cost_usd"]),
  ("context_store", ["key", "session_id", "agent_id", "value", "updated_at"]),
  ("file_locks", ["path", "session_id", "agent_id", "acquired_at", "expires_at"]),
  ("boundary_violations", ["id", "session_id", "agent_id", "timestamp", "file_path",
    "violation_type", "enforcement_action", "details"]),
  ("schema_migrations", ["version", "applied_at"])]

/-- `TABLE_SCHEMA[table]`. -/
def lookupSchema (table : String) : Option (List String) :=
  (tableSchema.find? (fun p => p.1 == table)).map Prod.snd

/-- `SAFE_IDENTIFIER = /^[a-z][a-z0-9_]*$/i`. -/
def safeIdent (s : String) : Bool :=
  match s.toList with
  | [] => false
  | c :: rest => c.isAlpha && rest.all (fun d => d.isAlphanum || d == '_')

/-- `assertValidTable`. -/
def assertValidTable (table : String) : Except String Unit :=
  match lookupSchema table with
  | none => .error ("Db: unknown table \"" ++ table ++ "\"")
  | some _ => .ok ()

/-- The column loop of `assertValidColumns`: regex first, then membership. -/
def checkColumns (table : String) (schema : List String) : List String → Except String Unit
  | [] => .ok ()
  | col :: rest =>
    if !safeIdent col then
      .error ("Db: unsafe column identifier \"" ++ col ++ "\"")
    else if !schema.contains col then
      .error ("Db: unknown column \"" ++ col ++ "\" for table \"" ++ table ++ "\"")
    else checkColumns table schema rest

/-- `assertValidColumns`. -/
def assertValidColumns (table : String) (columns : List String) : Except String Unit :=
  match lookupSchema table with
  | none => .error ("Db: unknown table \"" ++ table ++ "\"")
  | some schema => checkColumns table schema columns

/-- The database handle, as the log of executed statements with their bound
parameters. -/
structure SqlDb where
  executed : List (String × List String)
deriving DecidableEq

/-- `prepare(sql).run(params)`. -/
def runSql (db : SqlDb) (sql : String) (params : List String) : SqlDb :=
  ⟨db.executed ++ [(sql, params)]⟩

/-- `Db.insert(table, data)`. -/
def dbInsert (db : SqlDb) (table : String) (data : List (String × String)) :
    Except String SqlDb :=
  match assertValidTable table with
  | .error e => .error e
  | .ok _ =>
    match assertValidColumns table (data.map Prod.fst) with
    | .error e => .error e
    | .ok _ =>
      let columns := joinWith ", " (data.map Prod.fst)
      let placeholders := joinWith ", " (data.map (fun _ => "?"))
      let sql := "INSERT INTO " ++ table ++ " (" ++ columns ++ ") VALUES (" ++
        placeholders ++ ")"
      .ok (runSql db sql (data.map Prod.snd))

/-- `Db.insertOrReplace(table, data)`. -/
def dbInsertOrReplace (db : SqlDb) (table : String) (data : List (String × String)) :
    Except String SqlDb :=
  match assertValidTable table with
  | .error e => .error e
  | .ok _ =>
    match assertValidColumns table (data.map Prod.fst) with
    | .error e => .error e
    | .ok _ =>
      let columns := joinWith ", " (data.map Prod.fst)
      let placeholders := joinWith ", " (data.map (fun _ => "?"))
      let sql := "INSERT OR REPLACE INTO " ++ table ++ " (" ++ columns ++
        ") VALUES (" ++ placeholders ++ ")"
      .ok (runSql db sql (data.map Prod.snd))

/-- `Db.update(table, data, where, whereParams)`. -/
def dbUpdate (db : SqlDb) (table : String) (data : List (String × String))
    (whereClause : String) (whereParams : List String) : Except String SqlDb :=
  match assertValidTable table with
  | .error e => .error e
  | .ok _ =>
    match assertValidColumns table (data.map Prod.fst) with
    | .error e => .error e
    | .ok _ =>
      let setClause := joinWith ", " (data.map (fun p => p.1 ++ " = ?"))
      let sql := "UPDATE " ++ table ++ " SET " ++ setClause ++ " WHERE " ++ whereClause
      .ok (runSql db sql (data.map Prod.snd ++ whereParams))

/-- `Db.delete(table, where, whereParams)` (no column identifiers). -/
def dbDelete (db : SqlDb) (table : String) (whereClause : String)
    (whereParams : List String) : Except String SqlDb :=
  match assertValidTable table with
  | .error e => .error e
  | .ok _ =>
    let sql := "DELETE FROM " ++ table ++ " WHERE " ++ whereClause
    .ok (runSql db sql whereParams)

/-! ## Helper lemmas -/

/-- Canonicalization never reads the `hmac` field. -/
theorem canonicalizeEvent_withHmac (e : AuditEvent) (h : Option String) :
    canonicalizeEvent { e with hmac := h } = canonicalizeEvent e := rfl

/-- The HMAC of an event is unchanged by setting its `hmac` field. -/
theorem computeHmac_withHmac (f : HmacFn) (key : List Nat) (p : String)
    (e : AuditEvent) (h : Option String) :
    computeHmac f key p { e with hmac := h } = computeHmac f key p e := rfl

/-- The chain invariant: the stored hmac of each event is the HMAC of the
previous link concatenated with its canonical form, where the previous link
is the stored hmac of the immediately preceding event, or the given initial
value when no prior event exists. -/
def chainedFrom (f : HmacFn) (key : List Nat) : String → List AuditEvent → Prop
  | _, [] => True
  | prev, e :: rest =>
    e.hmac = some (computeHmac f key prev e) ∧
    chainedFrom f key (e.hmac.getD prev) rest

/-- Any run of `log` calls with a signing key extends the chain from the
cached hmac of the logger (or genesis when the cache is empty). -/
theorem logRun_chainedFrom (f : HmacFn) (key : List Nat) (sid : String)
    (traceId : Option String) :
    ∀ (inputs : List (LogOpts × String × String)) (st : LoggerState),
      chainedFrom f key (st.lastHmac.getD (genesisValue sid))
        (logRun f (some key) sid traceId st inputs) := by
  intro inputs
  induction inputs with
  | nil => intro st; exact trivial
  | cons x rest ih =>
    intro st
    obtain ⟨o, nid, nts⟩ := x
    exact ⟨rfl, ih (logStep f (some key) sid traceId st o nid nts).2⟩

/-- C1: for every session and every sequence of events appended through
`AuditLogger.log` while a signing key is configured, each stored hmac equals
the (lowercase-hex) HMAC-SHA256 of the previous link concatenated with the
canonical serialization of the event — the previous link being the hmac of
the immediately preceding event of the session, or the genesis value
`"k6s:genesis:" ++ sessionId` when no prior event exists; the canonical form
excludes the `hmac` field and lists the keys sorted ascending. -/
theorem audit_log_hmac_chain (f : HmacFn) (key : List Nat) (sid : String)
    (traceId : Option String) (inputs : List (LogOpts × String × String)) :
    chainedFrom f key (genesisValue sid)
      (logRun f (some key) sid traceId initLogger inputs) :=
  logRun_chainedFrom f key sid traceId inputs initLogger

/-! ## C4: sequence-gap detection in verifyChain -/

/-- The first Scenario B event (sequence 1) before signing. -/
def scenBEvent1 : AuditEvent :=
  { id := "01", timestamp := "2026-01-01T00:00:00.000Z", sequence := 1,
    sessionId := "s1", agentId := none, eventType := "session_start",
    action := "start", details := none, filesAffected := none,
    gateId := none, hmac := none, severity := "info" }

/-- The second Scenario B event (sequence 3) before signing. -/
def scenBEvent2 : AuditEvent :=
  { scenBEvent1 with
    id := "02"
    sequence := 3
    eventType := "tool_use"
    action := "run" }

/-- The first Scenario B event, signed from the genesis value. -/
def scenBSigned1 (f : HmacFn) (key : List Nat) : AuditEvent :=
  { scenBEvent1 with hmac := some (computeHmac f key (genesisValue "s1") scenBEvent1) }

/-- The second Scenario B event, chained from the hmac of the first as if an
event 2 existed. -/
def scenBSigned2 (f : HmacFn) (key : List Nat) : AuditEvent :=
  { scenBEvent2 with hmac := some (computeHmac f key
      (computeHmac f key (genesisValue "s1") scenBEvent1) scenBEvent2) }

/-- C4: for a session with exactly two signed events at sequences 1 and 3
(the second chained as if an event 2 existed), `verifyChain` returns
`valid = false` with exactly one error, of type `gap`, at sequence 3. -/
theorem verify_chain_gap_scenario (f : HmacFn) (key : List Nat) :
    verifyChain f key "s1" [scenBSigned1 f key, scenBSigned2 f key] =
      { valid := false, eventsChecked := 2,
        errors := [{ sequence := 3, errType := "gap",
                     message := "sequence gap: expected 2, got 3" }] } := by
  simp only [verifyChain, verifyGo, scenBSigned1, scenBSigned2]
  simp only [computeHmac_withHmac]
  simp only [eq_self_iff_true, not_true, ne_eq, ite_false, ite_true, if_pos, List.append_nil]
  simp [scenBEvent1, scenBEvent2]
  decide

/-! ## C2: resource limit triggers once (hook, Scenario F) -/

/-- The full action text logged in Scenario F. -/
def scenFAction : String :=
  "resource limit exceeded: agent \x27primary\x27 has made 3 tool calls (limit: 2)"

/-- C2 counterexample: with `max_tool_calls_per_session = 2` and a
pre-populated count of 2, the hook logs the limit event, but its action text
is "has made 3 tool calls (limit: 2)" — the literal pattern "(3/2)" claimed
by the spec does not occur in it (that pattern only appears in the MCP
server text `RESOURCE_LIMIT_WARNING`, a different surface). -/
theorem hook_limit_pattern_cex :
    (hookResourceStep "primary" (some 2) 2).1 =
      some { eventType := "boundary_violation", action := scenFAction,
             severity := "warning" } ∧
    containsStr scenFAction "(3/2)" = false := by
  constructor
  · decide
  · decide

/-- C2 (amended): the hook logs the limit event exactly on the call whose
incremented count equals `limit + 1`; in Scenario F the first run logs one
`boundary_violation` event with severity `warning` whose action text contains
"3 tool calls (limit: 2)" (current count and limit, not the "(3/2)" form),
and the second run logs nothing. -/
theorem hook_limit_triggers_once :
    (∀ (name : String) (l n : Nat),
      (hookLimitEvent name (some l) n).isSome = true ↔ n = l + 1) ∧
    (hookResourceStep "primary" (some 2) 2).1 =
      some { eventType := "boundary_violation", action := scenFAction,
             severity := "warning" } ∧
    containsStr scenFAction "3 tool calls (limit: 2)" = true ∧
    (hookResourceStep "primary" (some 2)
      (hookResourceStep "primary" (some 2) 2).2).1 = none := by
  refine ⟨?_, by decide, by decide, by decide⟩
  intro name l n
  simp only [hookLimitEvent]
  by_cases h : n = l + 1
  · subst h
    rw [if_pos ⟨Nat.lt_succ_self l, rfl⟩]
    simp
  · rw [if_neg (fun hc => h hc.2)]
    simpa using h

/-! ## C3: ordering of the no-boundary and outside-root denials -/

/-- C3 counterexample: for a path that resolves outside the project root and
an agent with no configured boundary, `checkPathAllowed` returns the
"no boundary configured" denial, not the "outside project root" one: the
boundary lookup is performed before any path resolution. -/
theorem check_path_no_boundary_first_cex :
    checkPathAllowed (fun _ => none) "/" [] "/tmp/proj" "../outside.txt" "primary" =
      (false, some "No boundary configured for agent \x27primary\x27; denied by default") ∧
    strStartsWith (pathRelative (resolveRootPath (fun _ => none) "/" "/tmp/proj")
      (resolveFilePath (fun _ => none) "/"
        (resolveRootPath (fun _ => none) "/" "/tmp/proj") "../outside.txt")) ".."
      = true := by
  constructor
  · decide
  · decide

/-- C3 (amended): the no-boundary denial is evaluated first — when no
boundary matches the agent, `checkPathAllowed` denies with "no boundary
configured" regardless of the path; only for agents that do have a boundary
does a path resolving outside the project root (relative form beginning with
".." or absolute) deny with "outside project root". -/
theorem check_path_denial_order (rp : String → Option String) (cwd : String)
    (boundaries : List BoundaryConfig) (root fp agent : String) :
    (getBoundaryForAgent boundaries agent = none →
      checkPathAllowed rp cwd boundaries root fp agent =
        (false, some ("No boundary configured for agent \x27" ++ agent ++
          "\x27; denied by default"))) ∧
    (∀ b, getBoundaryForAgent boundaries agent = some b →
      (strStartsWith (pathRelative (resolveRootPath rp cwd root)
          (resolveFilePath rp cwd (resolveRootPath rp cwd root) fp)) ".." = true ∨
        isAbsolutePath (pathRelative (resolveRootPath rp cwd root)
          (resolveFilePath rp cwd (resolveRootPath rp cwd root) fp)) = true) →
      checkPathAllowed rp cwd boundaries root fp agent =
        (false, some ("Path " ++ fp ++ " resolves outside project root"))) := by
  constructor
  · intro h
    unfold checkPathAllowed
    rw [h]
  · intro b hb hesc
    unfold checkPathAllowed
    rw [hb]
    simp only
    rw [if_pos]
    rcases hesc with h1 | h1
    · exact Or.inl h1
    · exact Or.inr h1

/-- A wildcard boundary with no path patterns, for the C3 witness. -/
def plainWildcardBoundary : BoundaryConfig :=
  { pattern := "*", allowedPaths := [], forbiddenPaths := [], enforcement := "advisory" }

/-- Witness for C3 (amended) at concrete inputs: no boundary at all, and a
wildcard boundary with an escaping relative path. -/
theorem check_path_denial_order_witness :
    checkPathAllowed (fun _ => none) "/" [] "/tmp/proj" "x.txt" "primary" =
      (false, some "No boundary configured for agent \x27primary\x27; denied by default") ∧
    checkPathAllowed (fun _ => none) "/" [plainWildcardBoundary] "/tmp/proj"
        "../o.txt" "primary" =
      (false, some "Path ../o.txt resolves outside project root") :=
  ⟨(check_path_denial_order (fun _ => none) "/" [] "/tmp/proj" "x.txt" "primary").1
      (by decide),
   (check_path_denial_order (fun _ => none) "/" [plainWildcardBoundary] "/tmp/proj"
      "../o.txt" "primary").2 plainWildcardBoundary (by decide) (by decide)⟩

/-! ## C6: Scenario C — deny by forbidden pattern -/

/-- The Scenario C boundary. -/
def scenCBoundary : BoundaryConfig :=
  { pattern := "*", allowedPaths := ["**"], forbiddenPaths := [".env*", "**/*.pem"],
    enforcement := "advisory" }

/-- C6: with the Scenario C boundary, root `/tmp/proj`, path `.env.local`
and agent `primary`, `checkPathAllowed` denies with
"Path matches forbidden pattern: .env*"; forbidden patterns are checked
before allowed ones (the allowed pattern `**` also matches `.env.local`),
and the dot-enabled glob matches the leading-dot file. -/
theorem check_path_forbidden_scenario (rp : String → Option String) (cwd : String)
    (h1 : rp "/tmp/proj" = some "/tmp/proj")
    (h2 : rp "/tmp/proj/.env.local" = some "/tmp/proj/.env.local") :
    checkPathAllowed rp cwd [scenCBoundary] "/tmp/proj" ".env.local" "primary" =
      (false, some "Path matches forbidden pattern: .env*") ∧
    globIsMatch true "**" ".env.local" = true ∧
    globIsMatch true ".env*" ".env.local" = true := by
  refine ⟨?_, by decide, by decide⟩
  have hroot : resolveRootPath rp cwd "/tmp/proj" = "/tmp/proj" := by
    simp [resolveRootPath, h1]
  have habs : isAbsolutePath ".env.local" = false := by decide
  have hjoin : joinPath "/tmp/proj" ".env.local" = "/tmp/proj/.env.local" := by decide
  have hfile : resolveFilePath rp cwd "/tmp/proj" ".env.local" = "/tmp/proj/.env.local" := by
    simp [resolveFilePath, habs, hjoin, h2]
  unfold checkPathAllowed
  rw [show getBoundaryForAgent [scenCBoundary] "primary" = some scenCBoundary by decide]
  simp only [hroot, hfile]
  decide

/-- Witness for C6 at a concrete resolution oracle. -/
theorem check_path_forbidden_scenario_witness :
    checkPathAllowed (fun s => some s) "/" [scenCBoundary] "/tmp/proj" ".env.local"
        "primary" =
      (false, some "Path matches forbidden pattern: .env*") ∧
    globIsMatch true "**" ".env.local" = true ∧
    globIsMatch true ".env*" ".env.local" = true :=
  check_path_forbidden_scenario (fun s => some s) "/" rfl rfl

/-! ## C5: prune dry-run vs real run -/

/-- The prune loop never touches the audit-events table. -/
theorem pruneLoop_auditEvents (ids : List String) :
    ∀ db : PruneDb, (pruneLoop db ids).1.auditEvents = db.auditEvents := by
  induction ids with
  | nil => intro db; rfl
  | cons sid rest ih =>
    intro db
    unfold pruneLoop
    by_cases h : (db.auditEvents.filter (fun e => e.sessionId == sid)).length = 0
    · rw [if_pos h]
      exact ih _
    · rw [if_neg h]
      exact ih db

/-- The real run prunes exactly the listed sessions that have no remaining
audit events. -/
theorem pruneLoop_count (ids : List String) :
    ∀ db : PruneDb, (pruneLoop db ids).2 =
      (ids.filter (fun sid =>
        (db.auditEvents.filter (fun e => e.sessionId == sid)).length == 0)).length := by
  induction ids with
  | nil => intro db; rfl
  | cons sid rest ih =>
    intro db
    unfold pruneLoop
    by_cases h : (db.auditEvents.filter (fun e => e.sessionId == sid)).length = 0
    · rw [if_pos h]
      simp only [List.filter_cons]
      rw [if_pos (by simpa using h)]
      simp only [List.length_cons]
      have := ih
        { db with
          boundaryViolations := delSess sid db.boundaryViolations
          fileLocks := delSess sid db.fileLocks
          contextStore := delSess sid db.contextStore
          gates := delSess sid db.gates
          costRecords := delSess sid db.costRecords
          agents := delSess sid db.agents
          sessions := db.sessions.filter (fun s => s.id != sid) }
      rw [this]
    · rw [if_neg h]
      simp only [List.filter_cons]
      rw [if_neg (by simpa using h)]
      exact ih db

/-- The database state used by the C5 counterexample: one completed session
that ended before the cutoff but still has one audit event newer than the
cutoff. -/
def pruneCexDb : PruneDb :=
  { auditEvents := [{ sessionId := "s1", timestamp := "2022-01-01T00:00:00.000Z" }]
    sessions := [{ id := "s1", state := "completed",
                   endedAt := some "2020-01-01T00:00:00.000Z" }]
    boundaryViolations := []
    fileLocks := []
    contextStore := []
    gates := []
    costRecords := []
    agents := [] }

/-- C5 counterexample: on `pruneCexDb` with cutoff 2021-01-01, the dry run
reports `sessions_pruned = 1` while the real run prunes 0 sessions (the
session keeps its newer event), so dry-run counts are not the counts a
non-dry run would produce. The dry run does leave the state unchanged. -/
theorem prune_dry_run_cex :
    (pruneAuditEvents pruneCexDb "2021-01-01T00:00:00.000Z" true).1 =
      { eventsDeleted := 0, sessionsPruned := 1 } ∧
    (pruneAuditEvents pruneCexDb "2021-01-01T00:00:00.000Z" false).1 =
      { eventsDeleted := 0, sessionsPruned := 0 } ∧
    (pruneAuditEvents pruneCexDb "2021-01-01T00:00:00.000Z" true).2 = pruneCexDb := by
  refine ⟨by decide, by decide, by decide⟩

/-- C5 (amended): dry-run prune mutates nothing and its `events_deleted`
matches the non-dry count, but its `sessions_pruned` counts every terminal
session ended before the cutoff without the "no remaining events" check the
real run performs, so it can exceed (and always bounds from above) the real
count. -/
theorem prune_dry_vs_real (db : PruneDb) (beforeDate : String) :
    (pruneAuditEvents db beforeDate true).2 = db ∧
    (pruneAuditEvents db beforeDate true).1.eventsDeleted =
      (pruneAuditEvents db beforeDate false).1.eventsDeleted ∧
    (pruneAuditEvents db beforeDate true).1.sessionsPruned =
      (db.sessions.filter (isStale beforeDate)).length ∧
    (pruneAuditEvents db beforeDate false).1.sessionsPruned =
      (((db.sessions.filter (isStale beforeDate)).map SessionRowP.id).filter
        (fun sid => ((db.auditEvents.filter
            (fun e => !strLt e.timestamp beforeDate)).filter
          (fun e => e.sessionId == sid)).length == 0)).length ∧
    (pruneAuditEvents db beforeDate false).1.sessionsPruned ≤
      (pruneAuditEvents db beforeDate true).1.sessionsPruned := by
  refine ⟨rfl, rfl, rfl, ?_, ?_⟩
  · show (pruneLoop _ _).2 = _
    rw [pruneLoop_count]
  · show (pruneLoop _ _).2 ≤ _
    rw [pruneLoop_count]
    calc ((((db.sessions.filter (isStale beforeDate)).map SessionRowP.id)).filter _).length
        ≤ ((db.sessions.filter (isStale beforeDate)).map SessionRowP.id).length :=
          List.length_filter_le _ _
      _ = (db.sessions.filter (isStale beforeDate)).length := List.length_map _ _

/-! ## C7: Scenario D — lock extension then cross-agent denial -/

/-- The lock row created by the first acquire of Scenario D. -/
def scenDLock1 (t0 : Nat) : FileLockRow :=
  { path := "src/x.ts", sessionId := "s", agentId := "agent-1",
    acquiredAt := t0, expiresAt := some (t0 + 300000) }

/-- C7: within one session, acquiring `src/x.ts` as `agent-1` twice succeeds
(the second acquire extends the lock to `now + 300 s`), an acquire by
`agent-2` while the lock is live fails with a reason containing
"locked by agent", a release by `agent-1` succeeds, and a subsequent acquire
by `agent-2` succeeds. The hypotheses say the re-acquire and the denied
acquire happen before the current expiry. -/
theorem lock_scenario_trace (t0 t1 t2 t3 : Nat)
    (h1 : t1 ≤ t0 + 300000) (h2 : t2 ≤ t1 + 300000) :
    (acquireLock ⟨[]⟩ "s" "src/x.ts" "agent-1" none t0).1.success = true ∧
    (acquireLock ⟨[]⟩ "s" "src/x.ts" "agent-1" none t0).2 = ⟨[scenDLock1 t0]⟩ ∧
    (acquireLock ⟨[scenDLock1 t0]⟩ "s" "src/x.ts" "agent-1" none t1).1 =
      { success := true, lock := some { scenDLock1 t0 with expiresAt := some (t1 + 300000) } } ∧
    (acquireLock ⟨[scenDLock1 t0]⟩ "s" "src/x.ts" "agent-1" none t1).2 =
      ⟨[{ scenDLock1 t0 with expiresAt := some (t1 + 300000) }]⟩ ∧
    (acquireLock ⟨[{ scenDLock1 t0 with expiresAt := some (t1 + 300000) }]⟩
        "s" "src/x.ts" "agent-2" none t2).1 =
      { success := false, reason := some "File locked by agent agent-1" } ∧
    containsStr "File locked by agent agent-1" "locked by agent" = true ∧
    (acquireLock ⟨[{ scenDLock1 t0 with expiresAt := some (t1 + 300000) }]⟩
        "s" "src/x.ts" "agent-2" none t2).2 =
      ⟨[{ scenDLock1 t0 with expiresAt := some (t1 + 300000) }]⟩ ∧
    (releaseLock ⟨[{ scenDLock1 t0 with expiresAt := some (t1 + 300000) }]⟩
        "s" "src/x.ts" "agent-1").1.success = true ∧
    (releaseLock ⟨[{ scenDLock1 t0 with expiresAt := some (t1 + 300000) }]⟩
        "s" "src/x.ts" "agent-1").2 = ⟨[]⟩ ∧
    (acquireLock ⟨[]⟩ "s" "src/x.ts" "agent-2" none t3).1.success = true := by
  have hd1 : decide (t1 > t0 + 300000) = false := decide_eq_false (by omega)
  have hd2 : decide (t2 > t1 + 300000) = false := decide_eq_false (by omega)
  refine ⟨rfl, ?_, ?_, ?_, ?_, by decide, ?_, ?_, ?_, rfl⟩ <;>
    simp [acquireLock, releaseLock, fetchLockRow, isLockExpired, scenDLock1,
      updateLockExpiry, insertOrReplaceLock, deleteLockRows, hd1, hd2]

/-- Witness for C7 at concrete times. -/
theorem lock_scenario_trace_witness :
    (acquireLock ⟨[]⟩ "s" "src/x.ts" "agent-1" none 0).1.success = true ∧
    (acquireLock ⟨[]⟩ "s" "src/x.ts" "agent-1" none 0).2 = ⟨[scenDLock1 0]⟩ ∧
    (acquireLock ⟨[scenDLock1 0]⟩ "s" "src/x.ts" "agent-1" none 1000).1 =
      { success := true, lock := some { scenDLock1 0 with expiresAt := some 301000 } } ∧
    (acquireLock ⟨[scenDLock1 0]⟩ "s" "src/x.ts" "agent-1" none 1000).2 =
      ⟨[{ scenDLock1 0 with expiresAt := some 301000 }]⟩ ∧
    (acquireLock ⟨[{ scenDLock1 0 with expiresAt := some 301000 }]⟩
        "s" "src/x.ts" "agent-2" none 2000).1 =
      { success := false, reason := some "File locked by agent agent-1" } ∧
    containsStr "File locked by agent agent-1" "locked by agent" = true ∧
    (acquireLock ⟨[{ scenDLock1 0 with expiresAt := some 301000 }]⟩
        "s" "src/x.ts" "agent-2" none 2000).2 =
      ⟨[{ scenDLock1 0 with expiresAt := some 301000 }]⟩ ∧
    (releaseLock ⟨[{ scenDLock1 0 with expiresAt := some 301000 }]⟩
        "s" "src/x.ts" "agent-1").1.success = true ∧
    (releaseLock ⟨[{ scenDLock1 0 with expiresAt := some 301000 }]⟩
        "s" "src/x.ts" "agent-1").2 = ⟨[]⟩ ∧
    (acquireLock ⟨[]⟩ "s" "src/x.ts" "agent-2" none 3000).1.success = true :=
  lock_scenario_trace 0 1000 2000 3000 (by decide) (by decide)

/-! ## C8: Scenario G — dependency diff -/

/-- The committed Scenario G `package.json`. -/
def scenGPrev : PkgJson :=
  { dependencies := some [("lodash", "^4.17.20"), ("chalk", "^5.0.0")]
    devDependencies := some [("typescript", "^5.0.0"), ("vitest", "^1.0.0")] }

/-- The working-tree Scenario G `package.json`. -/
def scenGCur : PkgJson :=
  { dependencies := some [("lodash", "^4.17.21"), ("zod", "^3.24.2")]
    devDependencies := some [("typescript", "^5.0.0"), ("vitest", "^3.0.5")] }

/-- C8: diffing the Scenario G manifests yields exactly the four changes
`updated lodash`, `added zod`, `removed chalk`, `updated vitest`; and when
the file has no committed version (inside a work tree), every declared
dependency is reported as added. -/
theorem dependency_diff_scenario :
    detectChanges (some scenGCur) (.shown (some scenGPrev)) =
      [.updated "lodash" "^4.17.20" "^4.17.21",
       .added "zod" "^3.24.2",
       .removed "chalk" "^5.0.0",
       .updated "vitest" "^1.0.0" "^3.0.5"] ∧
    (∀ cur : PkgJson, detectChanges (some cur) (.failed true) =
      (getAllDeclaredDependencies cur).map (fun p => DepChange.added p.1 p.2)) :=
  ⟨by decide, fun _ => rfl⟩

/-! ## C9: identifier safety in the store -/

/-- When some listed column is unknown for the (known) table, the column
check fails with some error. -/
theorem checkColumns_error (table : String) (schema : List String) :
    ∀ (cols : List String) (col : String), col ∈ cols →
      schema.contains col = false →
      ∃ e, checkColumns table schema cols = .error e := by
  intro cols
  induction cols with
  | nil => intro col h; cases h
  | cons c rest ih =>
    intro col hmem hcon
    cases h1 : safeIdent c with
    | false => exact ⟨_, by simp only [checkColumns, h1]; rfl⟩
    | true =>
      cases h2 : schema.contains c with
      | false => exact ⟨_, by simp only [checkColumns, h1, h2]; rfl⟩
      | true =>
        rcases List.mem_cons.mp hmem with h | h
        · subst h
          rw [h2] at hcon
          cases hcon
        · obtain ⟨e, he⟩ := ih col h hcon
          exact ⟨e, by simp only [checkColumns, h1, h2]; simpa using he⟩

/-- C9: every insert / insert-or-replace / update / delete with an unknown
table name, and every insert / insert-or-replace / update naming a column
unknown for a known table, returns an identifier error; in this model an
error result carries no executed SQL statement, so the database is
untouched. -/
theorem store_identifier_safety :
    (∀ (db : SqlDb) (table : String) (data : List (String × String))
        (w : String) (wp : List String), lookupSchema table = none →
      dbInsert db table data = .error ("Db: unknown table \"" ++ table ++ "\"") ∧
      dbInsertOrReplace db table data = .error ("Db: unknown table \"" ++ table ++ "\"") ∧
      dbUpdate db table data w wp = .error ("Db: unknown table \"" ++ table ++ "\"") ∧
      dbDelete db table w wp = .error ("Db: unknown table \"" ++ table ++ "\"")) ∧
    (∀ (db : SqlDb) (table : String) (schema : List String)
        (data : List (String × String)) (w : String) (wp : List String)
        (col : String), lookupSchema table = some schema →
      col ∈ data.map Prod.fst → schema.contains col = false →
      (∃ e, dbInsert db table data = .error e) ∧
      (∃ e, dbInsertOrReplace db table data = .error e) ∧
      (∃ e, dbUpdate db table data w wp = .error e)) := by
  constructor
  · intro db table data w wp h
    refine ⟨?_, ?_, ?_, ?_⟩ <;>
      simp [dbInsert, dbInsertOrReplace, dbUpdate, dbDelete, assertValidTable, h]
  · intro db table schema data w wp col hschema hmem hcon
    obtain ⟨e, he⟩ := checkColumns_error table schema (data.map Prod.fst) col hmem hcon
    refine ⟨⟨e, ?_⟩, ⟨e, ?_⟩, ⟨e, ?_⟩⟩ <;>
      simp [dbInsert, dbInsertOrReplace, dbUpdate, assertValidTable,
        assertValidColumns, hschema, he]

/-- Witness for C9: the unknown table `"nope"` and the unknown column
`"password"` on the known table `"agents"`. -/
theorem store_identifier_safety_witness :
    dbInsert ⟨[]⟩ "nope" [("id", "1")] = .error "Db: unknown table \"nope\"" ∧
    (∃ e, dbInsert ⟨[]⟩ "agents" [("password", "x")] = .error e) :=
  ⟨(store_identifier_safety.1 ⟨[]⟩ "nope" [("id", "1")] "id = ?" [] (by decide)).1,
   (store_identifier_safety.2 ⟨[]⟩ "agents"
      ["id", "session_id", "name", "role", "specialization", "state",
       "spawned_at", "boundary_config", "metadata", "claude_session_id",
       "tool_call_count"]
      [("password", "x")] "id = ?" [] "password" (by decide) (by decide) (by decide)).1⟩

/-! ## C10: lock exclusivity is per-session; the table is keyed by path -/

/-- C10: when the lock row for a path belongs to a different session, an
acquire through the manager of another session finds no existing lock (its lookup
filters by its own `session_id`) and its INSERT OR REPLACE succeeds, silently
replacing the row of the other session (the primary key of the table is `path` alone). -/
theorem cross_session_lock_overwrite (row : FileLockRow) (p s1 s2 b : String)
    (dur : Option Nat) (now : Nat)
    (hpath : row.path = p) (hsess : row.sessionId = s1) (hne : s1 ≠ s2) :
    fetchLockRow ⟨[row]⟩ p s2 = none ∧
    (acquireLock ⟨[row]⟩ s2 p b dur now).1.success = true ∧
    (acquireLock ⟨[row]⟩ s2 p b dur now).2 =
      ⟨[{ path := p, sessionId := s2, agentId := b, acquiredAt := now,
          expiresAt := some (now + dur.getD 300 * 1000) }]⟩ := by
  have hb : (s1 == s2) = false := by
    simp only [beq_eq_false_iff_ne, ne_eq]
    exact hne
  have hf : fetchLockRow ⟨[row]⟩ p s2 = none := by
    simp [fetchLockRow, List.find?, hsess, hb]
  refine ⟨hf, ?_, ?_⟩
  · simp [acquireLock, hf]
  · simp [acquireLock, hf, insertOrReplaceLock, hpath]

/-- A lock row held by a foreign session, for the C10 witness. -/
def foreignLockRow : FileLockRow :=
  { path := "src/a.ts", sessionId := "sessA", agentId := "a1",
    acquiredAt := 0, expiresAt := some 1000 }

/-- The replacing row written by the C10 witness acquire. -/
def overwritingLockRow : FileLockRow :=
  { path := "src/a.ts", sessionId := "sessB", agentId := "b2",
    acquiredAt := 5, expiresAt := some (5 + (Option.none).getD 300 * 1000) }

/-- Witness for C10 at a concrete foreign-session row. -/
theorem cross_session_lock_overwrite_witness :
    fetchLockRow ⟨[foreignLockRow]⟩ "src/a.ts" "sessB" = none ∧
    (acquireLock ⟨[foreignLockRow]⟩ "sessB" "src/a.ts" "b2" none 5).1.success = true ∧
    (acquireLock ⟨[foreignLockRow]⟩ "sessB" "src/a.ts" "b2" none 5).2 =
      ⟨[overwritingLockRow]⟩ :=
  cross_session_lock_overwrite foreignLockRow
    "src/a.ts" "sessA" "sessB" "b2" none 5 rfl rfl (by decide)

end Khoregos
